import Mathlib

/-!
Verification of the tool-call interpretation and confirmation engine of the
Canvas course-builder assistant (`src/app.py`).

The engine is shallowly embedded: Python/JSON values become the inductive
type `JValue`, Python dicts become insertion-ordered association lists
(`PyDict`), and the chat-turn handler `render_chat` becomes the pure state
transition `handleTurn` that additionally returns the list of executor
invocations performed during the turn.  The external collaborators (the
Canvas REST client and the Groq completion provider) are parameters of
`handleTurn`: the model reply is an input string, the executor is an
abstract function, and the `list_courses` fallback result is an input.
-/

/-- A JSON / Python value, as produced by `json.loads` and passed around as
tool-call arguments.  Python floats are modelled as rationals (`fnum`);
only their identity, truthiness and string-parsing behaviour matter here. -/
inductive JValue where
  | null : JValue
  | bool : Bool → JValue
  | num : Int → JValue
  | fnum : Rat → JValue
  | str : String → JValue
  | arr : List JValue → JValue
  | obj : List (String × JValue) → JValue

/-- A Python dict with string keys, in insertion order. -/
abbrev PyDict := List (String × JValue)

/-- Python whitespace, as stripped by `str.strip()`. -/
def pySpace (c : Char) : Bool :=
  c = ' ' || c = '\t' || c = '\n' || c = '\r' || c = '\x0b' || c = '\x0c'

/-- `str.strip()`: drop whitespace from both ends. -/
def pyStrip (cs : List Char) : List Char :=
  ((cs.dropWhile pySpace).reverse.dropWhile pySpace).reverse

/-- Substring containment, Python's `pat in hay`. -/
def containsSub (hay pat : List Char) : Bool :=
  match hay with
  | [] => pat.isEmpty
  | _ :: t => pat.isPrefixOf hay || containsSub t pat

/-- `pat in hay` on strings. -/
def strContains (hay pat : String) : Bool :=
  containsSub hay.toList pat.toList

/-- Python `str.lower()` (ASCII case folding, computable by reduction). -/
def pyLower (s : String) : String :=
  String.mk (s.toList.map Char.toLower)

/-- Python truthiness (`bool(v)`). -/
def pyTruthy : JValue → Bool
  | .null => false
  | .bool b => b
  | .num n => n ≠ 0
  | .fnum q => q ≠ 0
  | .str s => s ≠ ""
  | .arr xs => !xs.isEmpty
  | .obj kvs => !kvs.isEmpty

/-- Truthiness of `dict.get(k)` (missing key gives `None`, which is falsy). -/
def pyTruthyOpt : Option JValue → Bool
  | none => false
  | some v => pyTruthy v

/-- `m.get(k)` on a dict. -/
def alGet (m : PyDict) (k : String) : Option JValue :=
  (m.find? (fun kv => kv.1 == k)).map (·.2)

/-- `k in m` on a dict. -/
def alHas (m : PyDict) (k : String) : Bool :=
  m.any (fun kv => kv.1 == k)

/-- `m.pop(k)`: remove the entry for `k`. -/
def alPop (m : PyDict) (k : String) : PyDict :=
  m.filter (fun kv => !(kv.1 == k))

/-- `m[k] = v`: update in place if present (dicts keep the original
position of an updated key), otherwise append. -/
def alSet (m : PyDict) (k : String) (v : JValue) : PyDict :=
  if alHas m k then m.map (fun kv => if kv.1 == k then (k, v) else kv)
  else m ++ [(k, v)]

/-- Decimal digits to a natural number. -/
def digitsVal (ds : List Char) : Nat :=
  ds.foldl (fun a c => a * 10 + (c.toNat - 48)) 0

/-- Python `int(s)` on a string: optional surrounding whitespace, optional
sign, then decimal digits; `none` models the `ValueError` branch. -/
def pyInt (s : String) : Option Int :=
  let cs := pyStrip s.toList
  let signed : Bool × List Char :=
    match cs with
    | '-' :: t => (true, t)
    | '+' :: t => (false, t)
    | _ => (false, cs)
  if signed.2 ≠ [] ∧ signed.2.all Char.isDigit then
    some ((if signed.1 then -1 else 1) * (digitsVal signed.2 : Int))
  else none

/-- Assemble a rational from sign, integer digits, fraction digits and a
decimal exponent. -/
def ratOfParts (neg : Bool) (ip fp : List Char) (ex : Int) : Rat :=
  let base : Rat := (digitsVal ip : Rat) + (digitsVal fp : Rat) / ((10 : Rat) ^ fp.length)
  let signedBase := if neg then -base else base
  if ex ≥ 0 then signedBase * (10 : Rat) ^ ex.toNat
  else signedBase / (10 : Rat) ^ (-ex).toNat

/-- Python `float(s)` on a decimal string (sign, digits, optional fraction,
optional exponent); `none` models the `ValueError` branch. -/
def pyFloat (s : String) : Option Rat :=
  let cs := pyStrip s.toList
  let signed : Bool × List Char :=
    match cs with
    | '-' :: t => (true, t)
    | '+' :: t => (false, t)
    | _ => (false, cs)
  let ip := signed.2.takeWhile Char.isDigit
  let rest1 := signed.2.dropWhile Char.isDigit
  let fracAndRest : List Char × List Char :=
    match rest1 with
    | '.' :: t => (t.takeWhile Char.isDigit, t.dropWhile Char.isDigit)
    | _ => ([], rest1)
  let fp := fracAndRest.1
  let rest2 := fracAndRest.2
  if ip = [] ∧ fp = [] then none
  else
    match rest2 with
    | [] => some (ratOfParts signed.1 ip fp 0)
    | e :: t =>
      if e = 'e' ∨ e = 'E' then
        let esigned : Bool × List Char :=
          match t with
          | '-' :: t2 => (true, t2)
          | '+' :: t2 => (false, t2)
          | _ => (false, t)
        if esigned.2 ≠ [] ∧ esigned.2.all Char.isDigit then
          some (ratOfParts signed.1 ip fp
            ((if esigned.1 then -1 else 1) * (digitsVal esigned.2 : Int)))
        else none
      else none

/-- `value.lower() in ('true', '1', 'yes')`, the string-to-boolean cast of
`convert_argument_types`. -/
def boolStrTrue (s : String) : Bool :=
  pyLower s == "true" || pyLower s == "1" || pyLower s == "yes"

/-- One key of `convert_argument_types` (`app.py`, lines 117-135): coerce a
value by the declared schema type, leaving it unchanged on parse failure
or on undeclared/unknown types. -/
def convertOne (ty : String) (v : JValue) : JValue :=
  if ty = "integer" then
    match v with
    | .str s =>
      match pyInt s with
      | some n => .num n
      | none => .str s
    | _ => v
  else if ty = "boolean" then
    match v with
    | .str s => .bool (boolStrTrue s)
    | _ => .bool (pyTruthy v)
  else if ty = "number" then
    match v with
    | .str s =>
      match pyFloat s with
      | some q => .fnum q
      | none => .str s
    | _ => v
  else v

/-- `tool_props[key]`-lookup: the declared type of a schema parameter.
Schemas are modelled as ordered lists of (parameter name, type string). -/
def propType (props : List (String × String)) (k : String) : Option String :=
  (props.find? (fun kv => kv.1 == k)).map (·.2)

/-- `key in tool_props` / membership in `expected_params`. -/
def declared (props : List (String × String)) (k : String) : Bool :=
  props.any (fun kv => kv.1 == k)

/-- The loop body of `convert_argument_types`: coerce one entry when its
key is declared, keep it otherwise. -/
def convEntry (props : List (String × String)) (kv : String × JValue) : String × JValue :=
  match propType props kv.1 with
  | none => kv
  | some ty => (kv.1, convertOne ty kv.2)

/-- `convert_argument_types(arguments, tool_props)` (`app.py`, lines
109-137): keys absent from the schema pass through unchanged. -/
def convert_argument_types (args : PyDict) (props : List (String × String)) : PyDict :=
  args.map (convEntry props)

/-- The fixed template markers of `detect_placeholders`. -/
def placeholder_patterns : List String :=
  ["<YOUR_", "<HTML_", "<INSERT_", "<COURSE_", "<PAGE_", "<MODULE_"]

/-- First condition of `detect_placeholders`: the upper-cased value
contains one of the fixed template markers. -/
def condMarker (s : String) : Bool :=
  placeholder_patterns.any (fun p => containsSub (s.toList.map Char.toUpper) p.toList)

/-- Second condition of `detect_placeholders`: the stripped value starts
with `<`, ends with `>`, and contains no closing-tag marker. -/
def condBareTag (s : String) : Bool :=
  let st := pyStrip s.toList
  (st.head? == some '<') && (st.getLast? == some '>') && !(containsSub st ['<', '/'])

/-- A single value triggers `detect_placeholders` (only strings are
inspected; `app.py`, line 144). -/
def triggersPlaceholder : JValue → Bool
  | .str s => condMarker s || condBareTag s
  | _ => false

/-- The first offending (key, value) pair, i.e. where `detect_placeholders`
raises its `ValueError` (`app.py`, lines 140-151). -/
def detectFirst (args : PyDict) : Option (String × JValue) :=
  args.find? (fun kv => triggersPlaceholder kv.2)

/-- Whether `detect_placeholders(arguments)` raises. -/
def detect_placeholders (args : PyDict) : Bool :=
  (detectFirst args).isSome

/-- Truthiness test of the `include_items` rewrite (`app.py`, line 313):
Python's `include_items_value in [True, 'true', 'True', '1']`, where `in`
uses Python equality (so the integer `1` and the float `1.0` equal `True`). -/
def includeTruthy : JValue → Bool
  | .bool b => b
  | .num n => n == 1
  | .fnum q => q == 1
  | .str s => s == "true" || s == "True" || s == "1"
  | _ => false

/-- The `include_items → include=["items"]` rewrite (`app.py`, lines
310-315): the key is popped whenever present; `include` is set only for a
truthy popped value. -/
def includeItemsRewrite (args : PyDict) : PyDict :=
  if alHas args "include_items" then
    let v := (alGet args "include_items").getD .null
    let rest := alPop args "include_items"
    if includeTruthy v then alSet rest "include" (.arr [.str "items"]) else rest
  else args

/-- The fixed alias table `param_aliases` (`app.py`, lines 299-304), in its
Python insertion order. -/
def param_aliases : List (String × String) :=
  [("content", "body"), ("subject", "title"), ("body", "message"), ("is_published", "published")]

/-- One pass of the alias rewrite loop (`app.py`, lines 305-308): a rule
fires when the synonym is present, the synonym is not itself declared, and
the canonical name is declared; the synonym is popped and the canonical
key set to its value. -/
def aliasCond (props : List (String × String)) (args : PyDict)
    (incoming target : String) : Bool :=
  alHas args incoming && !declared props incoming && declared props target

def aliasApply (aliases : List (String × String)) (props : List (String × String))
    (args : PyDict) : PyDict :=
  match aliases with
  | [] => args
  | (incoming, target) :: rest =>
    let args' :=
      if aliasCond props args incoming target then
        alSet (alPop args incoming) target ((alGet args incoming).getD .null)
      else args
    aliasApply rest props args'

/-- Auto-injection of the sidebar course context (`app.py`, lines 293-296):
if the session course id is truthy, `course_id` is declared, and the
current `course_id` argument is absent or falsy, the context value is
injected. -/
def injectCond (ctx : Option JValue) (props : List (String × String))
    (args : PyDict) : Bool :=
  pyTruthyOpt ctx && declared props "course_id" && !pyTruthyOpt (alGet args "course_id")

def injectCourse (ctx : Option JValue) (props : List (String × String))
    (args : PyDict) : PyDict :=
  if injectCond ctx props args then
    alSet args "course_id" (ctx.getD .null)
  else args

/-- The closed-world filter (`app.py`, line 321): drop keys not declared by
the schema. -/
def filterExpected (props : List (String × String)) (args : PyDict) : PyDict :=
  args.filter (fun kv => declared props kv.1)

/-- The full argument-normalization pipeline of the confirmed-execution
path (`app.py`, lines 292-321), with the alias table as a parameter:
context injection, alias rewrite, `include_items` rewrite, type coercion,
closed-world filter — in the source's order. -/
def normalizeArgsWith (aliases : List (String × String)) (ctx : Option JValue)
    (props : List (String × String)) (args : PyDict) : PyDict :=
  filterExpected props
    (convert_argument_types
      (includeItemsRewrite (aliasApply aliases props (injectCourse ctx props args)))
      props)

/-- The pipeline with the program's fixed alias table. -/
def normalizeArgs (ctx : Option JValue) (props : List (String × String))
    (args : PyDict) : PyDict :=
  normalizeArgsWith param_aliases ctx props args

/-- JSON whitespace accepted by `json.loads` between tokens. -/
def jsonWs (c : Char) : Bool :=
  c = ' ' || c = '\t' || c = '\n' || c = '\r'

/-- Skip JSON whitespace. -/
def skipWs (cs : List Char) : List Char :=
  cs.dropWhile jsonWs

/-- Hex digit value. -/
def hexVal (c : Char) : Option Nat :=
  if '0' ≤ c ∧ c ≤ '9' then some (c.toNat - 48)
  else if 'a' ≤ c ∧ c ≤ 'f' then some (c.toNat - 87)
  else if 'A' ≤ c ∧ c ≤ 'F' then some (c.toNat - 55)
  else none

/-- Parse the body of a JSON string (the opening quote already consumed),
returning the decoded characters and the rest of the input. -/
def parseJString : List Char → Option (List Char × List Char)
  | [] => none
  | c :: rest =>
    if c = '"' then some ([], rest)
    else if c = '\\' then
      match rest with
      | [] => none
      | e :: rest2 =>
        if e = 'u' then
          match rest2 with
          | a :: b :: c2 :: d :: rest3 =>
            match hexVal a, hexVal b, hexVal c2, hexVal d with
            | some ha, some hb, some hc, some hd =>
              (parseJString rest3).map
                (fun pr => (Char.ofNat (((ha * 16 + hb) * 16 + hc) * 16 + hd) :: pr.1, pr.2))
            | _, _, _, _ => none
          | _ => none
        else
          let esc : Option Char :=
            if e = '"' then some '"'
            else if e = '\\' then some '\\'
            else if e = '/' then some '/'
            else if e = 'b' then some (Char.ofNat 8)
            else if e = 'f' then some (Char.ofNat 12)
            else if e = 'n' then some '\n'
            else if e = 'r' then some '\r'
            else if e = 't' then some '\t'
            else none
          match esc with
          | some ch => (parseJString rest2).map (fun pr => (ch :: pr.1, pr.2))
          | none => none
    else if c.toNat < 32 then none
    else (parseJString rest).map (fun pr => (c :: pr.1, pr.2))

/-- Parse a JSON number (strict `json.loads` grammar: optional minus, no
leading zeros, optional fraction and exponent).  Integer literals become
`JValue.num`, fractional or exponential ones `JValue.fnum`. -/
def parseJNumber (cs : List Char) : Option (JValue × List Char) :=
  let signed : Bool × List Char :=
    match cs with
    | '-' :: t => (true, t)
    | _ => (false, cs)
  let ds := signed.2.takeWhile Char.isDigit
  let rest1 := signed.2.dropWhile Char.isDigit
  if ds = [] then none
  else if ds.length > 1 ∧ ds.head? = some '0' then none
  else
    let intVal : Int := (if signed.1 then -1 else 1) * (digitsVal ds : Int)
    match rest1 with
    | '.' :: t =>
      let fs := t.takeWhile Char.isDigit
      let rest2 := t.dropWhile Char.isDigit
      if fs = [] then none
      else
        match rest2 with
        | e :: t2 =>
          if e = 'e' ∨ e = 'E' then
            let esigned : Bool × List Char :=
              match t2 with
              | '-' :: t3 => (true, t3)
              | '+' :: t3 => (false, t3)
              | _ => (false, t2)
            let es := esigned.2.takeWhile Char.isDigit
            let rest3 := esigned.2.dropWhile Char.isDigit
            if es = [] then none
            else some (.fnum (ratOfParts signed.1 ds fs
              ((if esigned.1 then -1 else 1) * (digitsVal es : Int))), rest3)
          else some (.fnum (ratOfParts signed.1 ds fs 0), rest2)
        | [] => some (.fnum (ratOfParts signed.1 ds fs 0), [])
    | e :: t2 =>
      if e = 'e' ∨ e = 'E' then
        let esigned : Bool × List Char :=
          match t2 with
          | '-' :: t3 => (true, t3)
          | '+' :: t3 => (false, t3)
          | _ => (false, t2)
        let es := esigned.2.takeWhile Char.isDigit
        let rest3 := esigned.2.dropWhile Char.isDigit
        if es = [] then none
        else some (.fnum (ratOfParts signed.1 ds []
          ((if esigned.1 then -1 else 1) * (digitsVal es : Int))), rest3)
      else some (.num intVal, rest1)
    | [] => some (.num intVal, [])

mutual

/-- Parse one JSON value (recursive descent with fuel; called with fuel
larger than the input length, so fuel never runs out on valid input). -/
def parseJValue : Nat → List Char → Option (JValue × List Char)
  | 0, _ => none
  | fuel + 1, cs =>
    let cs := skipWs cs
    match cs with
    | [] => none
    | c :: rest =>
      if c = '\x7b' then parseJMembers fuel (skipWs rest) []
      else if c = '[' then parseJItems fuel (skipWs rest) []
      else if c = '"' then
        (parseJString rest).map (fun pr => (.str (String.mk pr.1), pr.2))
      else if c = 't' then
        match rest with
        | 'r' :: 'u' :: 'e' :: r => some (.bool true, r)
        | _ => none
      else if c = 'f' then
        match rest with
        | 'a' :: 'l' :: 's' :: 'e' :: r => some (.bool false, r)
        | _ => none
      else if c = 'n' then
        match rest with
        | 'u' :: 'l' :: 'l' :: r => some (.null, r)
        | _ => none
      else parseJNumber cs

/-- Parse the members of a JSON object; the accumulator holds the members
seen so far (duplicate keys: last value wins, first position kept, as in a
Python dict). -/
def parseJMembers : Nat → List Char → List (String × JValue) → Option (JValue × List Char)
  | 0, _, _ => none
  | fuel + 1, cs, acc =>
    match cs with
    | '\x7d' :: rest =>
      if acc.isEmpty then some (.obj acc, rest) else none
    | '"' :: rest =>
      match parseJString rest with
      | none => none
      | some (key, rest2) =>
        match skipWs rest2 with
        | ':' :: rest3 =>
          match parseJValue fuel rest3 with
          | none => none
          | some (v, rest4) =>
            let acc' := alSet acc (String.mk key) v
            match skipWs rest4 with
            | ',' :: rest5 => parseJMembers fuel (skipWs rest5) acc'
            | '\x7d' :: rest5 => some (.obj acc', rest5)
            | _ => none
        | _ => none
    | _ => none

/-- Parse the items of a JSON array. -/
def parseJItems : Nat → List Char → List JValue → Option (JValue × List Char)
  | 0, _, _ => none
  | fuel + 1, cs, acc =>
    match cs with
    | ']' :: rest =>
      if acc.isEmpty then some (.arr acc, rest) else none
    | _ =>
      match parseJValue fuel cs with
      | none => none
      | some (v, rest) =>
        let acc' := acc ++ [v]
        match skipWs rest with
        | ',' :: rest2 => parseJItems fuel rest2 acc'
        | ']' :: rest2 => some (.arr acc', rest2)
        | _ => none

end

/-- `json.loads` on a candidate snippet: the whole input, up to surrounding
whitespace, must parse as one JSON value. -/
def json_loads (cs : List Char) : Option JValue :=
  match parseJValue (2 * cs.length + 2) cs with
  | none => none
  | some (v, rest) => if (skipWs rest).isEmpty then some v else none

/-- The cheap pre-filter of the extractor (`app.py`, line 433): the text
must contain an opening brace and the substring `tool`. -/
def extractPrefilter (text : String) : Bool :=
  strContains text "\x7b" && strContains text "tool"

/-- Try one candidate substring `text[start:endi]` (`app.py`, lines
441-447): it is accepted when it parses as a JSON object containing the
keys `tool` and `parameters` (no check on the shape of their values). -/
def tryCandidate (cs : List Char) (start endi : Nat) : Option (JValue × JValue) :=
  let snippet := (cs.drop start).take (endi - start)
  match json_loads snippet with
  | some (.obj kvs) =>
    if alHas kvs "tool" && alHas kvs "parameters" then
      some ((alGet kvs "tool").getD .null, (alGet kvs "parameters").getD .null)
    else none
  | _ => none

/-- The inner loop of the extractor (`app.py`, lines 439-447): for a fixed
opening-brace index `start`, try closing positions from the end of the
text down to just past `start`; the countdown argument is `endi - start`. -/
def scanEnds (cs : List Char) (start : Nat) : Nat → Option (JValue × JValue)
  | 0 => none
  | k + 1 =>
    let endi := start + k + 1
    match (if cs[endi - 1]? == some '\x7d' then tryCandidate cs start endi else none) with
    | some r => some r
    | none => scanEnds cs start k

/-- First hit of `f` over a list, left to right. -/
def firstSome {α β : Type} (f : α → Option β) : List α → Option β
  | [] => none
  | a :: t =>
    match f a with
    | some b => some b
    | none => firstSome f t

/-- The tool-call extractor (`app.py`, lines 433-459): prefiltered on the
text containing an opening brace and the substring `tool`; then, for each
opening-brace index left-to-right and each closing-brace index
right-to-left, the first candidate accepted by `tryCandidate` wins. -/
def extractToolCall (text : String) : Option (JValue × JValue) :=
  let cs := text.toList
  if extractPrefilter text then
    firstSome (fun start => scanEnds cs start (cs.length - start))
      ((List.range cs.length).filter (fun i => cs[i]? == some '\x7b'))
  else none

/-- Is the value a JSON string? -/
def isStrJ : JValue → Bool
  | .str _ => true
  | _ => false

/-- Is the value a JSON object? -/
def isObjJ : JValue → Bool
  | .obj _ => true
  | _ => false

/-- Acceptance of one candidate substring as described by the claim: the
substring must parse as a JSON object having a STRING value under `tool`
and an OBJECT value under `parameters`. -/
def tryCandidateTyped (cs : List Char) (start endi : Nat) : Option (JValue × JValue) :=
  let snippet := (cs.drop start).take (endi - start)
  match json_loads snippet with
  | some (.obj kvs) =>
    if alHas kvs "tool" && alHas kvs "parameters"
        && isStrJ ((alGet kvs "tool").getD .null)
        && isObjJ ((alGet kvs "parameters").getD .null) then
      some ((alGet kvs "tool").getD .null, (alGet kvs "parameters").getD .null)
    else none
  | _ => none

/-- Inner right-to-left closing-brace scan of the claim-described
extractor. -/
def scanEndsTyped (cs : List Char) (start : Nat) : Nat → Option (JValue × JValue)
  | 0 => none
  | k + 1 =>
    let endi := start + k + 1
    match (if cs[endi - 1]? == some '\x7d' then tryCandidateTyped cs start endi else none) with
    | some r => some r
    | none => scanEndsTyped cs start k

/-- The extractor exactly as the claim words it (typed acceptance of the
`tool` and `parameters` values).  Transcribed from the claim, to be
compared against `extractToolCall`. -/
def extractBySpecTyped (text : String) : Option (JValue × JValue) :=
  let cs := text.toList
  if extractPrefilter text then
    firstSome (fun start => scanEndsTyped cs start (cs.length - start))
      ((List.range cs.length).filter (fun i => cs[i]? == some '\x7b'))
  else none

/-- A named tool with its declared parameter schema. -/
structure ToolSpec where
  name : String
  props : List (String × String)

/-- The per-session state touched by a chat turn: the display history, the
pending confirmation, and the sidebar course context. -/
structure Session where
  messages : List (String × String)
  pending : Option (JValue × JValue)
  currentCourseId : Option JValue

/-- Python type names, for the `AttributeError` text raised when the
pending `arguments` value is not a dict. -/
def pyTypeName : JValue → String
  | .null => "NoneType"
  | .bool _ => "bool"
  | .num _ => "int"
  | .fnum _ => "float"
  | .str _ => "str"
  | .arr _ => "list"
  | .obj _ => "dict"

mutual

/-- Python `repr` of a value, used when values are interpolated into
messages (`f"- \x7bitem\x7d"` etc.). -/
def pyRepr : JValue → String
  | .null => "None"
  | .bool b => if b then "True" else "False"
  | .num n => toString n
  | .fnum q => toString q
  | .str s => "\x27" ++ s ++ "\x27"
  | .arr xs => "[" ++ String.intercalate ", " (pyReprList xs) ++ "]"
  | .obj kvs => "\x7b" ++ String.intercalate ", " (pyReprPairs kvs) ++ "\x7d"

/-- `repr` of the items of a list value. -/
def pyReprList : List JValue → List String
  | [] => []
  | v :: t => pyRepr v :: pyReprList t

/-- `repr` of the members of a dict value. -/
def pyReprPairs : List (String × JValue) → List String
  | [] => []
  | kv :: t => ("\x27" ++ kv.1 ++ "\x27: " ++ pyRepr kv.2) :: pyReprPairs t

end

/-- Python `str(v)`: like `repr` except that strings print bare. -/
def pyStr : JValue → String
  | .str s => s
  | v => pyRepr v

mutual

/-- `json.dumps` of a value, used only to build the human-readable
confirmation prompt (the `indent=2` pretty layout is not reproduced; the
prompt is a function of the parameters either way). -/
def jdumps : JValue → String
  | .null => "null"
  | .bool b => if b then "true" else "false"
  | .num n => toString n
  | .fnum q => toString q
  | .str s => "\"" ++ s ++ "\""
  | .arr xs => "[" ++ String.intercalate ", " (jdumpsList xs) ++ "]"
  | .obj kvs => "\x7b" ++ String.intercalate ", " (jdumpsPairs kvs) ++ "\x7d"

/-- `json.dumps` of array items. -/
def jdumpsList : List JValue → List String
  | [] => []
  | v :: t => jdumps v :: jdumpsList t

/-- `json.dumps` of object members. -/
def jdumpsPairs : List (String × JValue) → List String
  | [] => []
  | kv :: t => ("\"" ++ kv.1 ++ "\": " ++ jdumps kv.2) :: jdumpsPairs t

end

/-- The affirmation tokens of the confirmation branch (`app.py`, line 252). -/
def affirmTokens : List String := ["yes", "y", "confirm", "ok"]

/-- The rejection tokens (`app.py`, line 384). -/
def rejectTokens : List String := ["no", "n", "cancel"]

/-- The cancellation acknowledgement (`app.py`, line 391). -/
def cancelMsg : String := "✅ Operation cancelled. No changes were made."

/-- The confirmation prompt built from an extracted call (`app.py`, line 459). -/
def confirmPrompt (tc : JValue × JValue) : String :=
  "I want to call \x27" ++ pyStr tc.1 ++ "\x27 with these parameters:\n\n"
    ++ jdumps tc.2 ++ "\n\nDo you want to proceed? (yes/no)"

/-- The invalid-tool message (`app.py`, line 270). -/
def invalidToolMsg (fnv : JValue) (tools : List ToolSpec) : String :=
  "❌ Invalid tool \x27" ++ pyStr fnv ++ "\x27. Available tools: "
    ++ String.intercalate ", " ((tools.map (·.name)).take 10) ++ "..."

/-- The `ValueError` text of `detect_placeholders` for the first offending
entry (`app.py`, lines 147 and 151). -/
def placeholderError (kv : String × JValue) : String :=
  match kv.2 with
  | .str s =>
    if condMarker s then
      "Invalid placeholder value for \x27" ++ kv.1 ++ "\x27: " ++ s
        ++ ". Please provide an actual value."
    else "Placeholder detected in \x27" ++ kv.1 ++ "\x27: " ++ s
  | v => "Placeholder detected in \x27" ++ kv.1 ++ "\x27: " ++ pyStr v

/-- The valid `update_course` lifecycle events (`app.py`, line 333). -/
def validEvents : List String := ["offer", "claim", "conclude", "delete", "undelete"]

/-- Membership of the `event` argument in the valid set (Python `in` over
a string list: a non-string value is never a member). -/
def eventOkJ : JValue → Bool
  | .str s => validEvents.contains s
  | _ => false

/-- The invalid-event message (`app.py`, line 335). -/
def invalidEventMsg (v : JValue) : String :=
  "❌ Invalid event \x27" ++ pyStr v ++ "\x27 for update_course. Valid events: "
    ++ String.intercalate ", " validEvents

/-- First truthy value of a `get`-chain (Python `a or b or c`). -/
def firstTruthy : List (Option JValue) → Option JValue
  | [] => none
  | o :: t =>
    match o with
    | some v => if pyTruthy v then some v else firstTruthy t
    | none => firstTruthy t

/-- One bullet line of the list rendering (`app.py`, lines 350-355). -/
def itemLine (item : JValue) : String :=
  match item with
  | .obj kvs =>
    let nm := (firstTruthy [alGet kvs "name", alGet kvs "title", alGet kvs "short_name"]).getD (.str "Unnamed")
    let cid := (firstTruthy [alGet kvs "id", alGet kvs "course_id", alGet kvs "uuid"]).getD .null
    "- " ++ pyStr nm ++ " (ID: " ++ pyStr cid ++ ")"
  | v => "- " ++ pyStr v

/-- Bulleted rendering of the first 20 items with an ellipsis marker
(`app.py`, lines 348-357 and 478-486). -/
def renderLines (items : List JValue) : String :=
  String.intercalate "\n" ((items.take 20).map itemLine)
    ++ (if items.length > 20 then "\n…" else "")

/-- Rendering of a confirmed execution's result (`app.py`, lines 343-359). -/
def renderSuccess (r : JValue) : String :=
  match r with
  | .arr items =>
    if items.isEmpty then
      "No results returned. If you expected courses, check enrollment type/state (e.g., try enrollment_type=\x27teacher\x27, enrollment_state=\x27active\x27)."
    else "✅ Operation completed successfully!\n\n" ++ renderLines items
  | v => "✅ Operation completed successfully!\n\n" ++ pyStr v

/-- The fixed filters of the list-courses fallback (`app.py`, lines 473-476). -/
def fallbackArgs : PyDict :=
  [("enrollment_type", .str "teacher"), ("enrollment_state", .str "active")]

/-- Rendering of the fallback path's outcome (`app.py`, lines 477-491). -/
def fallbackRender (lcr : Except String (List JValue)) : String :=
  match lcr with
  | .error e => "❌ Error listing courses: " ++ e
  | .ok items =>
    if !items.isEmpty then "✅ Courses:\n\n" ++ renderLines items
    else "No courses found for your teacher enrollments. Try changing enrollment_type/state."

/-- The hallucination-heuristic phrase set (`app.py`, line 464). -/
def action_phrases : List String :=
  ["has been", "successfully", "created", "updated", "added", "deleted",
   "i have", "i will", "i\x27ve"]

/-- The warning appended when the model claims an effect without a call
(`app.py`, line 468). -/
def hallucinationNote : String :=
  "\n\n⚠️ Note: No Canvas action was executed because no tool call was issued. Please provide a clear request so I can call the correct tool."

/-- Does the operator message mention a Canvas entity (`app.py`, line 466)? -/
def mentionsEntity (prompt : String) : Bool :=
  strContains (pyLower prompt) "course" || strContains (pyLower prompt) "page"
    || strContains (pyLower prompt) "module" || strContains (pyLower prompt) "announcement"

/-- The guard condition of the `update_course` event validation
(`app.py`, lines 332-334). -/
def invalidEventCond (nm : String) (filtered : PyDict) : Bool :=
  nm == "update_course" && alHas filtered "event"
    && !eventOkJ ((alGet filtered "event").getD .null)

/-- The confirmed-execution path (`app.py`, lines 261-379): name lookup,
argument shape check, normalization, placeholder guard, `update_course`
event validation, then the executor call.  Returns the assistant messages
appended to the history and the executor invocations performed. -/
def runConfirmed (tools : List ToolSpec) (exec : String → PyDict → Except String JValue)
    (ctx : Option JValue) (p : JValue × JValue) :
    List (String × String) × List (String × PyDict) :=
  match p.1 with
  | .str nm =>
    match tools.find? (fun t => t.name == nm) with
    | none => ([("assistant", invalidToolMsg (.str nm) tools)], [])
    | some tool =>
      match p.2 with
      | .obj rawArgs =>
        let filtered := normalizeArgs ctx tool.props rawArgs
        match detectFirst filtered with
        | some off => ([("assistant", "❌ Error: " ++ placeholderError off)], [])
        | none =>
          if invalidEventCond nm filtered then
            ([("assistant", invalidEventMsg ((alGet filtered "event").getD .null))], [])
          else
            match exec nm filtered with
            | .ok r => ([("assistant", renderSuccess r)], [(nm, filtered)])
            | .error e => ([("assistant", "❌ Error: " ++ e)], [(nm, filtered)])
      | v =>
        ([("assistant", "❌ Error: \x27" ++ pyTypeName v ++ "\x27 object has no attribute \x27keys\x27")], [])
  | v => ([("assistant", invalidToolMsg v tools)], [])

/-- One chat turn (`app.py`, lines 249-511).  Parameters: the tool
catalog, the executor, the result the Canvas client would return for the
fallback `list_courses` call, the completion provider's reply text for
this turn (used only when no confirmation is pending), the session state
and the operator's message.  Returns the new session state and the list of
executor invocations (name and argument mapping) performed this turn. -/
def handleTurn (tools : List ToolSpec) (exec : String → PyDict → Except String JValue)
    (lcr : Except String (List JValue)) (reply : String)
    (s : Session) (prompt : String) : Session × List (String × PyDict) :=
  match s.pending with
  | some p =>
    if affirmTokens.contains (pyLower prompt) then
      let r := runConfirmed tools exec s.currentCourseId p
      (⟨s.messages ++ [("user", prompt)] ++ r.1, none, s.currentCourseId⟩, r.2)
    else if rejectTokens.contains (pyLower prompt) then
      (⟨s.messages ++ [("user", prompt), ("assistant", cancelMsg)], none, s.currentCourseId⟩, [])
    else
      (s, [])
  | none =>
    let pendingLocal := extractToolCall reply
    let resp0 :=
      match pendingLocal with
      | some tc => confirmPrompt tc
      | none =>
        if action_phrases.any (fun ph => strContains (pyLower reply) ph) && mentionsEntity prompt then
          reply ++ hallucinationNote
        else reply
    let doFallback := pendingLocal.isNone && strContains (pyLower prompt) "list"
      && strContains (pyLower prompt) "course"
    let respFinal := if doFallback then fallbackRender lcr else resp0
    let invs := if doFallback then [("list_courses", fallbackArgs)] else []
    (⟨s.messages ++ [("user", prompt), ("assistant", respFinal)], pendingLocal, s.currentCourseId⟩, invs)

/-- A model reply embedding a valid tool call in prose (the spec's worked
example). -/
def exampleReply : String :=
  "Sure! \x7b\"tool\": \"create_page\", \"parameters\": \x7b\"course_id\": 5, \"title\": \"Welcome\"\x7d\x7d Let me know."

/-- A small catalog containing the `create_page` action. -/
def sampleTools : List ToolSpec :=
  [⟨"create_page", [("course_id", "integer"), ("title", "string"), ("body", "string")]⟩]

/-- A fresh session: empty history, nothing pending, no course context. -/
def s0 : Session := ⟨[], none, none⟩

/-- The pending action extracted from `exampleReply`. -/
def examplePending : JValue × JValue :=
  (.str "create_page", .obj [("course_id", .num 5), ("title", .str "Welcome")])

/-- The session after the proposal turn of `exampleReply`. -/
def s1 : Session :=
  ⟨[("user", "please create a welcome page"), ("assistant", confirmPrompt examplePending)],
   some examplePending, none⟩

/-- A trivial executor used to instantiate witnesses. -/
def execStub : String → PyDict → Except String JValue := fun _ _ => .ok .null

/-- Reducing `handleTurn` on an affirmative confirmation turn. -/
theorem handleTurn_affirm (tools : List ToolSpec)
    (exec : String → PyDict → Except String JValue)
    (lcr : Except String (List JValue)) (reply : String) (s : Session) (prompt : String)
    (p : JValue × JValue) (hp : s.pending = some p)
    (ha : (pyLower prompt) ∈ affirmTokens) :
    handleTurn tools exec lcr reply s prompt
      = (⟨s.messages ++ [("user", prompt)] ++ (runConfirmed tools exec s.currentCourseId p).1,
          none, s.currentCourseId⟩,
         (runConfirmed tools exec s.currentCourseId p).2) := by
  simp [handleTurn, hp, ha]

/-- Reducing `handleTurn` on a rejection turn. -/
theorem handleTurn_reject (tools : List ToolSpec)
    (exec : String → PyDict → Except String JValue)
    (lcr : Except String (List JValue)) (reply : String) (s : Session) (prompt : String)
    (p : JValue × JValue) (hp : s.pending = some p)
    (hna : (pyLower prompt) ∉ affirmTokens)
    (hr : (pyLower prompt) ∈ rejectTokens) :
    handleTurn tools exec lcr reply s prompt
      = (⟨s.messages ++ [("user", prompt), ("assistant", cancelMsg)], none, s.currentCourseId⟩,
         []) := by
  simp [handleTurn, hp, hna, hr]

/-- Reducing `handleTurn` on an ambiguous confirmation turn: nothing at
all changes. -/
theorem handleTurn_ambiguous (tools : List ToolSpec)
    (exec : String → PyDict → Except String JValue)
    (lcr : Except String (List JValue)) (reply : String) (s : Session) (prompt : String)
    (p : JValue × JValue) (hp : s.pending = some p)
    (hna : (pyLower prompt) ∉ affirmTokens)
    (hnr : (pyLower prompt) ∉ rejectTokens) :
    handleTurn tools exec lcr reply s prompt = (s, []) := by
  simp [handleTurn, hp, hna, hnr]

/-- The invocation list of a confirmed execution that reaches the
executor: a valid name, dict-shaped arguments, no placeholder hit and no
invalid `update_course` event yield exactly one invocation carrying the
normalized arguments. -/
theorem runConfirmed_invs (tools : List ToolSpec)
    (exec : String → PyDict → Except String JValue) (ctx : Option JValue)
    (nm : String) (tool : ToolSpec) (rawArgs : PyDict)
    (hfind : tools.find? (fun t => t.name == nm) = some tool)
    (hdet : detectFirst (normalizeArgs ctx tool.props rawArgs) = none)
    (hev : invalidEventCond nm (normalizeArgs ctx tool.props rawArgs) = false) :
    (runConfirmed tools exec ctx (.str nm, .obj rawArgs)).2
      = [(nm, normalizeArgs ctx tool.props rawArgs)] := by
  simp only [runConfirmed, hfind, hdet, hev]
  cases h : exec nm (normalizeArgs ctx tool.props rawArgs) <;> simp [h]

/-- C1: started in Idle, a turn whose model reply embeds a valid tool call
performs no executor invocation and stores that call as the single pending
action; a following turn case-insensitively equal to "yes" performs
exactly one executor invocation and returns to Idle; "no" returns to Idle
with zero invocations; "maybe" stays in AwaitingConfirmation with the same
pending action and zero invocations. -/
theorem C1_confirmation_state_machine
    (exec : String → PyDict → Except String JValue) (lcr : Except String (List JValue)) :
    handleTurn sampleTools exec lcr exampleReply s0 "please create a welcome page" = (s1, []) ∧
    (handleTurn sampleTools exec lcr "" s1 "Yes").2
      = [("create_page", [("course_id", JValue.num 5), ("title", JValue.str "Welcome")])] ∧
    (handleTurn sampleTools exec lcr "" s1 "Yes").1.pending = none ∧
    (handleTurn sampleTools exec lcr "" s1 "no").2 = [] ∧
    (handleTurn sampleTools exec lcr "" s1 "no").1.pending = none ∧
    (handleTurn sampleTools exec lcr "" s1 "maybe") = (s1, []) := by
  have hy := handleTurn_affirm sampleTools exec lcr "" s1 "Yes" examplePending rfl (by decide)
  have hn := handleTurn_reject sampleTools exec lcr "" s1 "no" examplePending rfl
    (by decide) (by decide)
  refine ⟨rfl, ?_, ?_, ?_, ?_, ?_⟩
  · rw [hy]
    exact runConfirmed_invs sampleTools exec none "create_page"
      ⟨"create_page", [("course_id", "integer"), ("title", "string"), ("body", "string")]⟩
      [("course_id", .num 5), ("title", .str "Welcome")] rfl rfl rfl
  · rw [hy]
  · rw [hn]
  · rw [hn]
  · exact handleTurn_ambiguous sampleTools exec lcr "" s1 "maybe" examplePending rfl
      (by decide) (by decide)

/-- C7: confirming a pending action always clears it, whatever the
execution outcome; and in Idle, a reply from which no tool call parses
never sets a pending action. -/
theorem C7_pending_cleared_and_never_set :
    (∀ (tools : List ToolSpec) (exec : String → PyDict → Except String JValue)
        (lcr : Except String (List JValue)) (reply : String) (s : Session) (prompt : String)
        (p : JValue × JValue), s.pending = some p → (pyLower prompt) ∈ affirmTokens →
        (handleTurn tools exec lcr reply s prompt).1.pending = none) ∧
    (∀ (tools : List ToolSpec) (exec : String → PyDict → Except String JValue)
        (lcr : Except String (List JValue)) (reply : String) (s : Session) (prompt : String),
        s.pending = none → extractToolCall reply = none →
        (handleTurn tools exec lcr reply s prompt).1.pending = none) := by
  constructor
  · intro tools exec lcr reply s prompt p hp ha
    rw [handleTurn_affirm tools exec lcr reply s prompt p hp ha]
  · intro tools exec lcr reply s prompt hp hex
    simp [handleTurn, hp, hex]

/-- Witness for C7 at concrete inputs. -/
theorem C7_witness :
    (handleTurn sampleTools execStub (.ok []) "" s1 "yes").1.pending = none ∧
    (handleTurn sampleTools execStub (.ok []) "Hello! I am a tool." s0 "hi").1.pending = none :=
  ⟨C7_pending_cleared_and_never_set.1 sampleTools execStub (.ok []) "" s1 "yes"
      examplePending rfl (by decide),
   C7_pending_cleared_and_never_set.2 sampleTools execStub (.ok []) "Hello! I am a tool."
      s0 "hi" rfl rfl⟩

/-- C9 (amended): an ambiguous reply to a pending confirmation changes
nothing: the pending action is kept, no executor call happens, and — in
contrast to the claim — the ambiguous turn is NOT appended to the
conversation history (the source only renders a transient warning). -/
theorem C9_ambiguous_turn_preserves_state
    (tools : List ToolSpec) (exec : String → PyDict → Except String JValue)
    (lcr : Except String (List JValue)) (reply : String) (s : Session) (prompt : String)
    (p : JValue × JValue) (hp : s.pending = some p)
    (hna : (pyLower prompt) ∉ affirmTokens) (hnr : (pyLower prompt) ∉ rejectTokens) :
    handleTurn tools exec lcr reply s prompt = (s, []) := by
  simp [handleTurn, hp, hna, hnr]

/-- Counterexample to C9 as stated: after the ambiguous turn "maybe", the
history is unchanged — the operator message was not recorded. -/
theorem C9_counterexample :
    (handleTurn sampleTools execStub (.ok []) ""
        ⟨[("user", "hi")], some examplePending, none⟩ "maybe").1.messages = [("user", "hi")] ∧
    ("user", "maybe") ∉ (handleTurn sampleTools execStub (.ok []) ""
        ⟨[("user", "hi")], some examplePending, none⟩ "maybe").1.messages := by
  exact ⟨rfl, by decide⟩

/-- Witness for the amended C9 at a concrete ambiguous turn. -/
theorem C9_witness :
    pyLower "maybe" ∉ affirmTokens ∧ pyLower "maybe" ∉ rejectTokens ∧
    handleTurn sampleTools execStub (.ok []) "" s1 "maybe" = (s1, []) :=
  ⟨by decide, by decide,
   C9_ambiguous_turn_preserves_state sampleTools execStub (.ok []) "" s1 "maybe"
     examplePending rfl (by decide) (by decide)⟩

/-- C6: in Idle, when no tool call parses from the model reply and the
operator message contains both "list" and "course" (case-insensitively),
the list-courses action is invoked with exactly the fixed teacher/active
filters, and the rendered fallback result replaces the model's textual
answer in the history (the reply text never reaches it). -/
theorem C6_list_courses_fallback
    (tools : List ToolSpec) (exec : String → PyDict → Except String JValue)
    (lcr : Except String (List JValue)) (reply : String) (s : Session) (prompt : String)
    (hp : s.pending = none) (hex : extractToolCall reply = none)
    (hl : strContains (pyLower prompt) "list" = true)
    (hc : strContains (pyLower prompt) "course" = true) :
    (handleTurn tools exec lcr reply s prompt).2 = [("list_courses", fallbackArgs)] ∧
    (handleTurn tools exec lcr reply s prompt).1.messages
      = s.messages ++ [("user", prompt), ("assistant", fallbackRender lcr)] := by
  simp [handleTurn, hp, hex, hl, hc]

/-- Witness for C6 at a concrete prose reply. -/
theorem C6_witness :
    extractToolCall "Here are your courses: Math and Art." = none ∧
    (handleTurn sampleTools execStub (.ok [.obj [("name", .str "Math"), ("id", .num 9)]])
        "Here are your courses: Math and Art." s0 "list my courses").2
      = [("list_courses", fallbackArgs)] ∧
    (handleTurn sampleTools execStub (.ok [.obj [("name", .str "Math"), ("id", .num 9)]])
        "Here are your courses: Math and Art." s0 "list my courses").1.messages
      = [("user", "list my courses"),
         ("assistant", fallbackRender (.ok [.obj [("name", .str "Math"), ("id", .num 9)]]))] :=
  ⟨rfl,
   (C6_list_courses_fallback sampleTools execStub
      (.ok [.obj [("name", .str "Math"), ("id", .num 9)]])
      "Here are your courses: Math and Art." s0 "list my courses" rfl rfl rfl rfl).1,
   (C6_list_courses_fallback sampleTools execStub
      (.ok [.obj [("name", .str "Math"), ("id", .num 9)]])
      "Here are your courses: Math and Art." s0 "list my courses" rfl rfl rfl rfl).2⟩

/-- A key surviving the closed-world filter is declared by the schema. -/
theorem alHas_filterExpected_imp (props : List (String × String)) (a : PyDict) (k : String)
    (h : alHas (filterExpected props a) k = true) : declared props k = true := by
  simp only [alHas, List.any_eq_true] at h
  obtain ⟨kv, hkv, hbeq⟩ := h
  simp only [filterExpected, List.mem_filter] at hkv
  rw [beq_iff_eq] at hbeq
  rw [← hbeq]
  exact hkv.2

/-- Every key of a normalized argument mapping is declared by the schema
it was normalized against. -/
theorem alHas_normalizeArgs_imp (ctx : Option JValue) (props : List (String × String))
    (args : PyDict) (k : String) (h : alHas (normalizeArgs ctx props args) k = true) :
    declared props k = true :=
  alHas_filterExpected_imp props _ k h

/-- Any invocation emitted by the confirmed-execution path targets a
catalog tool and carries only keys declared by that tool's schema. -/
theorem runConfirmed_invs_closed (tools : List ToolSpec)
    (exec : String → PyDict → Except String JValue) (ctx : Option JValue)
    (p : JValue × JValue) :
    ∀ inv ∈ (runConfirmed tools exec ctx p).2,
      ∃ t ∈ tools, t.name = inv.1 ∧ ∀ k, alHas inv.2 k = true → declared t.props k = true := by
  intro inv hinv
  obtain ⟨fn, argv⟩ := p
  cases fn <;> simp only [runConfirmed] at hinv <;> try simp at hinv
  case str nm =>
    cases hfind : tools.find? (fun t => t.name == nm) with
    | none => simp only [hfind] at hinv; simp at hinv
    | some tool =>
      simp only [hfind] at hinv
      have hmem : tool ∈ tools := List.mem_of_find?_eq_some hfind
      have hname : tool.name = nm := by
        have := List.find?_some hfind
        rwa [beq_iff_eq] at this
      cases argv <;> try simp at hinv
      case obj rawArgs =>
        cases hdet : detectFirst (normalizeArgs ctx tool.props rawArgs) with
        | some off => simp only [hdet] at hinv; simp at hinv
        | none =>
          simp only [hdet] at hinv
          cases hev : invalidEventCond nm (normalizeArgs ctx tool.props rawArgs) with
          | true => simp only [hev, if_true] at hinv; simp at hinv
          | false =>
            simp only [hev, Bool.false_eq_true, if_false] at hinv
            cases hex : exec nm (normalizeArgs ctx tool.props rawArgs) with
            | ok r =>
              rw [hex] at hinv
              simp only [List.mem_singleton] at hinv
              refine ⟨tool, hmem, ?_, ?_⟩
              · rw [hinv]; exact hname
              · intro k hk
                rw [hinv] at hk
                exact alHas_normalizeArgs_imp ctx tool.props rawArgs k hk
            | error e =>
              rw [hex] at hinv
              simp only [List.mem_singleton] at hinv
              refine ⟨tool, hmem, ?_, ?_⟩
              · rw [hinv]; exact hname
              · intro k hk
                rw [hinv] at hk
                exact alHas_normalizeArgs_imp ctx tool.props rawArgs k hk

/-- C2: for every confirmed execution, the argument mapping passed to the
executor contains only keys declared in the target action's parameter
schema — undeclared keys are dropped, never passed through. -/
theorem C2_closed_world_arguments
    (tools : List ToolSpec) (exec : String → PyDict → Except String JValue)
    (lcr : Except String (List JValue)) (reply : String) (s : Session) (prompt : String)
    (p : JValue × JValue) (hp : s.pending = some p) (ha : (pyLower prompt) ∈ affirmTokens) :
    ∀ inv ∈ (handleTurn tools exec lcr reply s prompt).2,
      ∃ t ∈ tools, t.name = inv.1 ∧ ∀ k, alHas inv.2 k = true → declared t.props k = true := by
  rw [handleTurn_affirm tools exec lcr reply s prompt p hp ha]
  exact runConfirmed_invs_closed tools exec s.currentCourseId p

/-- Witness for C2 on a concrete confirmed execution. -/
theorem C2_witness :
    (∀ inv ∈ (handleTurn sampleTools execStub (.ok []) "" s1 "confirm").2,
      ∃ t ∈ sampleTools, t.name = inv.1 ∧
        ∀ k, alHas inv.2 k = true → declared t.props k = true) ∧
    (handleTurn sampleTools execStub (.ok []) "" s1 "confirm").2
      = [("create_page", [("course_id", JValue.num 5), ("title", JValue.str "Welcome")])] :=
  ⟨C2_closed_world_arguments sampleTools execStub (.ok []) "" s1 "confirm"
      examplePending rfl (by decide),
   by
    rw [handleTurn_affirm sampleTools execStub (.ok []) "" s1 "confirm" examplePending rfl
      (by decide)]
    exact runConfirmed_invs sampleTools execStub none "create_page"
      ⟨"create_page", [("course_id", "integer"), ("title", "string"), ("body", "string")]⟩
      [("course_id", .num 5), ("title", .str "Welcome")] rfl rfl rfl⟩

/-- The text used to separate the source extractor from the claim's typed
acceptance: the embedded object has the two keys but with non-string /
non-object values. -/
def badToolText : String := "\x7b\"tool\": 1, \"parameters\": 2\x7d"

/-- Acceptance of one candidate substring under the amended claim: a JSON
object containing the keys `tool` and `parameters`, with no condition on
the shape of their values. -/
def tryCandidateKeys (cs : List Char) (start endi : Nat) : Option (JValue × JValue) :=
  let snippet := (cs.drop start).take (endi - start)
  match json_loads snippet with
  | some (.obj kvs) =>
    if alHas kvs "tool" && alHas kvs "parameters" then
      some ((alGet kvs "tool").getD .null, (alGet kvs "parameters").getD .null)
    else none
  | _ => none

/-- Inner right-to-left closing-brace scan of the amended-claim extractor. -/
def scanEndsKeys (cs : List Char) (start : Nat) : Nat → Option (JValue × JValue)
  | 0 => none
  | k + 1 =>
    let endi := start + k + 1
    match (if cs[endi - 1]? == some '\x7d' then tryCandidateKeys cs start endi else none) with
    | some r => some r
    | none => scanEndsKeys cs start k

/-- The extractor as the amended claim words it: left-to-right over
opening braces, right-to-left over closing braces, first substring
parsing as a JSON object with the keys `tool` and `parameters` wins. -/
def extractBySpecKeys (text : String) : Option (JValue × JValue) :=
  let cs := text.toList
  if extractPrefilter text then
    firstSome (fun start => scanEndsKeys cs start (cs.length - start))
      ((List.range cs.length).filter (fun i => cs[i]? == some '\x7b'))
  else none

/-- Candidate acceptance of the amended transcription coincides with the
source's. -/
theorem tryCandidateKeys_eq (cs : List Char) (start endi : Nat) :
    tryCandidateKeys cs start endi = tryCandidate cs start endi := rfl

/-- The inner scans coincide. -/
theorem scanEndsKeys_eq (cs : List Char) (start : Nat) :
    ∀ k, scanEndsKeys cs start k = scanEnds cs start k := by
  intro k
  induction k with
  | zero => rfl
  | succ n ih => simp only [scanEndsKeys, scanEnds, tryCandidateKeys_eq, ih]

/-- `firstSome` only depends on the pointwise behaviour of its function. -/
theorem firstSome_congr {α β : Type} (f g : α → Option β) (h : ∀ a, f a = g a)
    (l : List α) : firstSome f l = firstSome g l := by
  induction l with
  | nil => rfl
  | cons a t ih => simp only [firstSome, h a, ih]

/-- Counterexample to C3 as stated: on an embedded object whose `tool`
value is not a string and whose `parameters` value is not an object, the
source extractor accepts while the claim-described typed extractor finds
nothing. -/
theorem C3_counterexample :
    extractToolCall badToolText = some (.num 1, .num 2) ∧
    extractBySpecTyped badToolText = none ∧
    extractToolCall badToolText ≠ extractBySpecTyped badToolText := by
  refine ⟨rfl, rfl, ?_⟩
  intro h
  rw [show extractToolCall badToolText = some (.num 1, .num 2) from rfl,
    show extractBySpecTyped badToolText = none from rfl] at h
  exact Option.some_ne_none _ h

/-- C3 (amended): the extractor scans opening braces left-to-right and,
for each, closing braces right-to-left, accepting the first substring that
parses as a JSON object CONTAINING the keys `tool` and `parameters`
(their values are not type-checked); on the spec's worked example it
yields `create_page` with its arguments, and on text with no embedded
JSON object it yields none rather than failing. -/
theorem C3_extractor_amended :
    extractToolCall exampleReply
      = some (.str "create_page", .obj [("course_id", .num 5), ("title", .str "Welcome")]) ∧
    extractToolCall "Hello! I am a tool." = none ∧
    ∀ text, extractToolCall text = extractBySpecKeys text := by
  refine ⟨rfl, rfl, ?_⟩
  intro text
  cases hpre : extractPrefilter text with
  | false => simp [extractToolCall, extractBySpecKeys, hpre]
  | true =>
    simp only [extractToolCall, extractBySpecKeys, hpre, if_true]
    exact firstSome_congr _ _ (fun start => (scanEndsKeys_eq text.toList start _).symm) _

/-- `containsSub` decides list-infix containment. -/
theorem containsSub_correct (hay pat : List Char) :
    containsSub hay pat = true ↔ pat <:+: hay := by
  induction hay with
  | nil => simp [containsSub, List.isEmpty_iff, List.infix_nil]
  | cons c t ih =>
    simp only [containsSub, Bool.or_eq_true, List.isPrefixOf_iff_prefix, ih,
      List.infix_cons_iff]

/-- An infix made of characters rejected by `p` survives `dropWhile p`. -/
theorem infix_dropWhile (p : Char → Bool) (pat cs : List Char) (hne : pat ≠ [])
    (hnp : ∀ c ∈ pat, p c = false) (h : pat <:+: cs) : pat <:+: cs.dropWhile p := by
  induction cs with
  | nil => rw [ List.infix_nil] at h; exact absurd h hne
  | cons c t ih =>
    rw [List.dropWhile_cons]
    by_cases hpc : p c = true
    · rw [if_pos hpc]
      rcases List.infix_cons_iff.mp h with hpre | hinf
      · obtain ⟨r, hr⟩ := hpre
        cases pat with
        | nil => exact absurd rfl hne
        | cons pc pt =>
          rw [List.cons_append] at hr
          injection hr with h1 _
          rw [← h1] at hpc
          rw [hnp pc (List.mem_cons_self pc pt)] at hpc
          exact absurd hpc (by simp)
      · exact ih hinf
    · rw [if_neg hpc]
      exact h

/-- An infix made of non-whitespace characters survives `str.strip()`. -/
theorem infix_pyStrip (pat cs : List Char) (hne : pat ≠ [])
    (hnp : ∀ c ∈ pat, pySpace c = false) (h : pat <:+: cs) : pat <:+: pyStrip cs := by
  have h1 : pat <:+: cs.dropWhile pySpace := infix_dropWhile _ _ _ hne hnp h
  have h2 : pat.reverse <:+: (cs.dropWhile pySpace).reverse := List.reverse_infix.mpr h1
  have h3 : pat.reverse <:+: ((cs.dropWhile pySpace).reverse).dropWhile pySpace :=
    infix_dropWhile _ _ _ (by simpa using hne)
      (fun c hc => hnp c (List.mem_reverse.mp hc)) h2
  have h4 := List.reverse_infix.mpr h3
  simpa [pyStrip] using h4

/-- Whitespace characters have code points at most 32. -/
theorem pySpace_le (c : Char) (h : pySpace c = true) : c.toNat ≤ 32 := by
  simp [pySpace] at h
  rcases h with ((((h | h) | h) | h) | h) | h <;> subst h <;> decide

/-- `dropWhile` is the identity on lists with no `p`-characters. -/
theorem dropWhile_eq_self_of (p : Char → Bool) (cs : List Char)
    (h : ∀ c ∈ cs, p c = false) : cs.dropWhile p = cs := by
  cases cs with
  | nil => rfl
  | cons c t =>
    rw [List.dropWhile_cons, h c (List.mem_cons_self c t)]
    simp

/-- `str.strip()` is the identity on whitespace-free strings. -/
theorem pyStrip_eq_self (cs : List Char) (h : ∀ c ∈ cs, pySpace c = false) :
    pyStrip cs = cs := by
  unfold pyStrip
  rw [dropWhile_eq_self_of _ _ h,
    dropWhile_eq_self_of _ _ (fun c hc => h c (List.mem_reverse.mp hc)),
    List.reverse_reverse]

/-- A bare `<[A-Z_]+>` tag triggers the bare-tag condition. -/
theorem condBareTag_of_shape (s : String) (body : List Char)
    (hs : s.toList = '<' :: body ++ ['>']) (hbne : body ≠ [])
    (hbody : ∀ c ∈ body, (65 ≤ c.toNat ∧ c.toNat ≤ 90) ∨ c = '_') :
    condBareTag s = true := by
  have hchars : ∀ c ∈ s.toList, pySpace c = false := by
    rw [hs]
    intro c hc
    rcases List.mem_cons.mp hc with rfl | hc2
    · decide
    · rcases List.mem_append.mp hc2 with hc3 | hc3
      · rcases hbody c hc3 with ⟨h1, _⟩ | rfl
        · cases hps : pySpace c
          · rfl
          · have h32 := pySpace_le c hps
            omega
        · decide
      · rcases List.mem_singleton.mp hc3 with rfl
        decide
  have hstrip : pyStrip s.toList = s.toList := pyStrip_eq_self _ hchars
  have hnosub : containsSub s.toList ['<', '/'] = false := by
    cases hcs : containsSub s.toList ['<', '/']
    · rfl
    · exfalso
      have hinf := (containsSub_correct _ _).mp hcs
      have hmem : '/' ∈ s.toList := hinf.subset (by simp)
      rw [hs] at hmem
      rcases List.mem_cons.mp hmem with h1 | h1
      · exact absurd h1 (by decide)
      · rcases List.mem_append.mp h1 with h2 | h2
        · rcases hbody '/' h2 with ⟨ha, _⟩ | hc
          · have : ('/').toNat = 47 := rfl
            omega
          · exact absurd hc (by decide)
        · exact absurd (List.mem_singleton.mp h2) (by decide)
  simp only [condBareTag]
  rw [hstrip, hnosub, hs]
  rw [show ('<' :: body ++ ['>']).getLast? = some '>' from by
    rw [show '<' :: body ++ ['>'] = ('<' :: body) ++ ['>'] from rfl]
    exact List.getLast?_concat _]
  simp

/-- C4: the Placeholder Guard fails iff some top-level string value either
contains a template marker after upper-casing or is a bare single tag
(trimmed, starts `<`, ends `>`, no `</`); every bare `<[A-Z_]+>` string
makes it fail; and a string containing `</` is never flagged by the
bare-tag condition. -/
theorem C4_placeholder_guard :
    (∀ args : PyDict, detect_placeholders args = true ↔
        ∃ kv ∈ args, ∃ s, kv.2 = JValue.str s ∧
          (condMarker s = true ∨ condBareTag s = true)) ∧
    (∀ (k : String) (s : String),
        (∃ body, s.toList = '<' :: body ++ ['>'] ∧ body ≠ [] ∧
          ∀ c ∈ body, (65 ≤ c.toNat ∧ c.toNat ≤ 90) ∨ c = '_') →
        detect_placeholders [(k, JValue.str s)] = true) ∧
    (∀ s : String, containsSub s.toList ['<', '/'] = true → condBareTag s = false) := by
  refine ⟨?_, ?_, ?_⟩
  · intro args
    simp only [detect_placeholders, detectFirst, List.find?_isSome]
    constructor
    · rintro ⟨kv, hmem, htrig⟩
      refine ⟨kv, hmem, ?_⟩
      cases hv : kv.2 <;> rw [hv] at htrig <;> simp only [triggersPlaceholder] at htrig
      case str s => exact ⟨s, rfl, Bool.or_eq_true _ _ |>.mp htrig⟩
      all_goals exact absurd htrig (by simp)
    · rintro ⟨kv, hmem, s, hs, hcond⟩
      refine ⟨kv, hmem, ?_⟩
      rw [hs]
      simp only [triggersPlaceholder, Bool.or_eq_true]
      exact hcond
  · rintro k s ⟨body, hs, hbne, hbody⟩
    have hbt := condBareTag_of_shape s body hs hbne hbody
    simp [detect_placeholders, detectFirst, List.find?, triggersPlaceholder, hbt]
  · intro s hcs
    have hinf := (containsSub_correct _ _).mp hcs
    have h2 : ['<', '/'] <:+: pyStrip s.toList :=
      infix_pyStrip _ _ (by decide) (by decide) hinf
    have h3 : containsSub (pyStrip s.toList) ['<', '/'] = true :=
      (containsSub_correct _ _).mpr h2
    simp only [condBareTag, h3]
    simp

/-- Witness for C4 at concrete strings. -/
theorem C4_witness :
    detect_placeholders [("title", JValue.str "<MY_TAG>")] = true ∧
    containsSub ("<h1>Welcome</h1>").toList ['<', '/'] = true ∧
    condBareTag "<h1>Welcome</h1>" = false :=
  ⟨C4_placeholder_guard.2.1 "title" "<MY_TAG>"
      ⟨"MY_TAG".toList, by decide, by decide, by decide⟩,
   by decide,
   C4_placeholder_guard.2.2 "<h1>Welcome</h1>" (by decide)⟩

/-- The catalog for the nested-placeholder scenario. -/
def toolsC10 : List ToolSpec :=
  [⟨"list_modules", [("course_id", "integer"), ("include", "array")]⟩]

/-- A pending call whose `include` array carries a placeholder-shaped
string nested inside a non-string value. -/
def pC10 : JValue × JValue :=
  (.str "list_modules", .obj [("course_id", .num 3), ("include", .arr [.str "<COURSE_ID>"])])

/-- A session awaiting confirmation of `pC10`. -/
def sC10 : Session := ⟨[], some pC10, none⟩

/-- C10: the Placeholder Guard inspects only top-level string values: a
non-string argument value never influences the guard, whatever
placeholder-shaped strings it contains, and such an argument is forwarded
to the executor unflagged. -/
theorem C10_guard_top_level_only :
    (∀ (k : String) (v : JValue) (args : PyDict), isStrJ v = false →
        detect_placeholders ((k, v) :: args) = detect_placeholders args) ∧
    (∀ exec : String → PyDict → Except String JValue,
        (handleTurn toolsC10 exec (.ok []) "" sC10 "yes").2
          = [("list_modules",
              [("course_id", JValue.num 3), ("include", JValue.arr [JValue.str "<COURSE_ID>"])])] ∧
        (handleTurn toolsC10 exec (.ok []) "" sC10 "yes").1.pending = none) := by
  constructor
  · intro k v args hv
    have htrig : triggersPlaceholder v = false := by
      cases v <;> simp only [triggersPlaceholder]
      exact absurd hv (by simp [isStrJ])
    simp [detect_placeholders, detectFirst, List.find?, htrig]
  · intro exec
    have hy := handleTurn_affirm toolsC10 exec (.ok []) "" sC10 "yes" pC10 rfl (by decide)
    constructor
    · rw [hy]
      exact runConfirmed_invs toolsC10 exec none "list_modules"
        ⟨"list_modules", [("course_id", "integer"), ("include", "array")]⟩
        [("course_id", .num 3), ("include", .arr [.str "<COURSE_ID>"])] rfl rfl rfl
    · rw [hy]

/-- Witness for C10 at a concrete nested value and a concrete executor. -/
theorem C10_witness :
    detect_placeholders [("include", JValue.arr [JValue.str "<COURSE_ID>"])]
      = detect_placeholders [] ∧
    (handleTurn toolsC10 execStub (.ok []) "" sC10 "yes").2
      = [("list_modules",
          [("course_id", JValue.num 3), ("include", JValue.arr [JValue.str "<COURSE_ID>"])])] :=
  ⟨C10_guard_top_level_only.1 "include" (JValue.arr [JValue.str "<COURSE_ID>"]) [] rfl,
   (C10_guard_top_level_only.2 execStub).1⟩

/-- A successful `get` implies key membership. -/
theorem alGet_some_imp_alHas (m : PyDict) (k : String) (v : JValue)
    (h : alGet m k = some v) : alHas m k = true := by
  unfold alGet at h
  cases hf : m.find? (fun kv => kv.1 == k) with
  | none => rw [hf] at h; simp at h
  | some kv =>
    have hmem := List.mem_of_find?_eq_some hf
    have hpred := List.find?_some hf
    simp only [alHas, List.any_eq_true]
    exact ⟨kv, hmem, hpred⟩

/-- `pop` removes the key. -/
theorem alHas_alPop_self (m : PyDict) (k : String) : alHas (alPop m k) k = false := by
  cases h : alHas (alPop m k) k
  · rfl
  · exfalso
    simp only [alHas, alPop, List.any_eq_true, List.mem_filter] at h
    obtain ⟨kv, ⟨_, h2⟩, h3⟩ := h
    rw [h3] at h2
    simp at h2

/-- Updating the entry for `k` in place does not change which other keys
are present. -/
theorem any_map_update (m : PyDict) (k k' : String) (v : JValue) :
    ((m.map (fun kv => if kv.1 == k then (k, v) else kv)).any (fun kv => kv.1 == k'))
      = m.any (fun kv => kv.1 == k') := by
  induction m with
  | nil => rfl
  | cons kv t ih =>
    simp only [List.map_cons, List.any_cons, ih]
    have hhead : ((if kv.1 == k then (k, v) else kv).1 == k') = (kv.1 == k') := by
      cases hkv : kv.1 == k
      · simp
      · simp only [if_true]
        rw [beq_iff_eq] at hkv
        rw [hkv]
    rw [hhead]

/-- Setting one key leaves membership of other keys unchanged. -/
theorem alHas_alSet_ne (m : PyDict) (k k' : String) (v : JValue) (hne : k ≠ k') :
    alHas (alSet m k v) k' = alHas m k' := by
  unfold alSet
  by_cases hh : alHas m k = true
  · rw [if_pos hh]
    exact any_map_update m k k' v
  · rw [if_neg hh]
    simp only [alHas, List.any_append, List.any_cons, List.any_nil]
    have : (k == k') = false := by
      rw [beq_eq_false_iff_ne]
      exact hne
    rw [this]
    simp

/-- Looking up `k` after the in-place update yields the new value, as long
as `k` occurs in the dict. -/
theorem find?_map_update (m : PyDict) (k : String) (v : JValue)
    (hh : m.any (fun kv => kv.1 == k) = true) :
    alGet (m.map (fun kv => if kv.1 == k then (k, v) else kv)) k = some v := by
  induction m with
  | nil => simp at hh
  | cons kv t ih =>
    cases hkv : kv.1 == k
    · rw [show List.map (fun kv => if kv.1 == k then (k, v) else kv) (kv :: t)
          = kv :: List.map (fun kv => if kv.1 == k then (k, v) else kv) t from by
        simp only [List.map_cons, hkv]
        simp]
      unfold alGet
      rw [List.find?_cons_of_neg _ (by simp [hkv])]
      apply ih
      simp only [List.any_cons, hkv, Bool.false_or] at hh
      exact hh
    · rw [show List.map (fun kv => if kv.1 == k then (k, v) else kv) (kv :: t)
          = (k, v) :: List.map (fun kv => if kv.1 == k then (k, v) else kv) t from by
        simp only [List.map_cons, hkv]
        simp]
      unfold alGet
      rw [List.find?_cons_of_pos _ (by simp)]
      rfl

/-- Setting a key makes it retrievable with the new value. -/
theorem alGet_alSet_self (m : PyDict) (k : String) (v : JValue) :
    alGet (alSet m k v) k = some v := by
  unfold alSet
  by_cases hh : alHas m k = true
  · rw [if_pos hh]
    exact find?_map_update m k v hh
  · rw [if_neg hh]
    have hnone : m.find? (fun kv => kv.1 == k) = none := by
      rw [List.find?_eq_none]
      intro kv hkv hbeq
      exact hh (by simp only [alHas, List.any_eq_true]; exact ⟨kv, hkv, hbeq⟩)
    unfold alGet
    rw [List.find?_append, hnone]
    simp [List.find?]

/-- Counterexample to C8 as stated: with the non-truthy value `False`, the
`include_items` parameter IS removed (it is popped unconditionally), while
the claim says it would be kept. -/
theorem C8_counterexample :
    includeItemsRewrite [("include_items", JValue.bool false)] = [] ∧
    alHas (includeItemsRewrite [("include_items", JValue.bool false)]) "include_items"
      = false ∧
    alHas [("include_items", JValue.bool false)] "include_items" = true := ⟨rfl, rfl, rfl⟩

/-- C8 (amended): a present `include_items` parameter is ALWAYS removed;
`include` is set to the singleton array `["items"]` exactly when the
removed value is truthy in the source's sense (`True`, `"true"`,
`"True"`, `"1"`, or a number equal to `1`); for any other value nothing
is added; and an absent `include_items` leaves the mapping unchanged. -/
theorem C8_include_items_amended :
    (∀ (args : PyDict) (v : JValue), alGet args "include_items" = some v →
      alHas (includeItemsRewrite args) "include_items" = false ∧
      (includeTruthy v = true →
        includeItemsRewrite args
          = alSet (alPop args "include_items") "include" (.arr [.str "items"]) ∧
        alGet (includeItemsRewrite args) "include" = some (.arr [.str "items"])) ∧
      (includeTruthy v = false → includeItemsRewrite args = alPop args "include_items")) ∧
    (∀ args : PyDict, alHas args "include_items" = false → includeItemsRewrite args = args) := by
  constructor
  · intro args v hget
    have hhas : alHas args "include_items" = true := alGet_some_imp_alHas args _ v hget
    have hrw : includeItemsRewrite args
        = if includeTruthy v then
            alSet (alPop args "include_items") "include" (.arr [.str "items"])
          else alPop args "include_items" := by
      unfold includeItemsRewrite
      rw [if_pos hhas, hget]
      rfl
    cases htr : includeTruthy v with
    | true =>
      refine ⟨?_, ?_, ?_⟩
      · rw [hrw, htr, if_pos rfl, alHas_alSet_ne _ _ _ _ (by decide)]
        exact alHas_alPop_self args "include_items"
      · intro _
        rw [hrw, htr, if_pos rfl]
        exact ⟨rfl, alGet_alSet_self _ _ _⟩
      · intro hf
        exact Bool.noConfusion hf
    | false =>
      refine ⟨?_, ?_, ?_⟩
      · rw [hrw, htr]
        simp only [Bool.false_eq_true, if_false]
        exact alHas_alPop_self args "include_items"
      · intro ht
        exact Bool.noConfusion ht
      · intro _
        rw [hrw, htr]
        simp
  · intro args h
    unfold includeItemsRewrite
    rw [if_neg (by rw [h]; simp)]

/-- Witness for the amended C8 at concrete mappings. -/
theorem C8_witness :
    alGet [("include_items", JValue.str "True"), ("course_id", JValue.num 3)] "include_items"
      = some (JValue.str "True") ∧
    alHas (includeItemsRewrite
      [("include_items", JValue.str "True"), ("course_id", JValue.num 3)]) "include_items"
      = false ∧
    alGet (includeItemsRewrite
      [("include_items", JValue.str "True"), ("course_id", JValue.num 3)]) "include"
      = some (JValue.arr [JValue.str "items"]) ∧
    includeItemsRewrite [("a", JValue.null)] = [("a", JValue.null)] :=
  ⟨rfl,
   (C8_include_items_amended.1
      [("include_items", JValue.str "True"), ("course_id", JValue.num 3)]
      (JValue.str "True") rfl).1,
   ((C8_include_items_amended.1
      [("include_items", JValue.str "True"), ("course_id", JValue.num 3)]
      (JValue.str "True") rfl).2.1 rfl).2,
   C8_include_items_amended.2 [("a", JValue.null)] rfl⟩

/-- Type coercion is idempotent on a single value. -/
theorem convertOne_idem (ty : String) (v : JValue) :
    convertOne ty (convertOne ty v) = convertOne ty v := by
  by_cases h1 : ty = "integer"
  · subst h1
    cases v with
    | str s =>
      cases hp : pyInt s with
      | some n => simp [convertOne, hp]
      | none => simp [convertOne, hp]
    | null => simp [convertOne]
    | bool b => simp [convertOne]
    | num n => simp [convertOne]
    | fnum q => simp [convertOne]
    | arr l => simp [convertOne]
    | obj o => simp [convertOne]
  · by_cases h2 : ty = "boolean"
    · subst h2
      cases v <;> simp [convertOne, pyTruthy]
    · by_cases h3 : ty = "number"
      · subst h3
        cases v with
        | str s =>
          cases hp : pyFloat s with
          | some q => simp [convertOne, hp]
          | none => simp [convertOne, hp]
        | null => simp [convertOne]
        | bool b => simp [convertOne]
        | num n => simp [convertOne]
        | fnum q => simp [convertOne]
        | arr l => simp [convertOne]
        | obj o => simp [convertOne]
      · simp [convertOne, h1, h2, h3]

/-- Coercing one entry never changes its key. -/
theorem convEntry_fst (props : List (String × String)) (kv : String × JValue) :
    (convEntry props kv).1 = kv.1 := by
  cases hp : propType props kv.1
  · simp [convEntry, hp]
  · simp [convEntry, hp]

/-- Coercing one entry is idempotent. -/
theorem convEntry_idem (props : List (String × String)) (kv : String × JValue) :
    convEntry props (convEntry props kv) = convEntry props kv := by
  cases hp : propType props kv.1 with
  | none => simp [convEntry, hp]
  | some ty => simp [convEntry, hp, convertOne_idem]

/-- Coercion does not change which keys are present. -/
theorem alHas_convert (a : PyDict) (props : List (String × String)) (k : String) :
    alHas (convert_argument_types a props) k = alHas a k := by
  induction a with
  | nil => rfl
  | cons kv t ih =>
    simp only [convert_argument_types, alHas] at ih ⊢
    simp only [List.map_cons, List.any_cons]
    rw [convEntry_fst, ih]

/-- Keys of a filtered mapping are declared. -/
theorem filterExpected_keys (props : List (String × String)) (a : PyDict) :
    ∀ kv ∈ filterExpected props a, declared props kv.1 = true :=
  fun _ hkv => (List.mem_filter.mp hkv).2

/-- On a mapping whose keys are all declared, no alias rule fires. -/
theorem aliasApply_id (aliases : List (String × String)) (props : List (String × String))
    (m : PyDict) (h : ∀ kv ∈ m, declared props kv.1 = true) :
    aliasApply aliases props m = m := by
  induction aliases with
  | nil => rfl
  | cons rule rest ih =>
    obtain ⟨inc, tgt⟩ := rule
    have hcond : aliasCond props m inc tgt = false := by
      cases hh : alHas m inc
      · simp [aliasCond, hh]
      · have hdec : declared props inc = true := by
          simp only [alHas, List.any_eq_true] at hh
          obtain ⟨kv, hkv, hbeq⟩ := hh
          rw [beq_iff_eq] at hbeq
          rw [← hbeq]
          exact h kv hkv
        simp [aliasCond, hdec]
    simp only [aliasApply, hcond, Bool.false_eq_true, if_false]
    exact ih

/-- An absent `include_items` leaves the rewrite a no-op. -/
theorem includeItemsRewrite_absent (m : PyDict) (h : alHas m "include_items" = false) :
    includeItemsRewrite m = m := by
  unfold includeItemsRewrite
  rw [if_neg (by rw [h]; simp)]

/-- The rewrite's output never contains `include_items`. -/
theorem alHas_includeItemsRewrite_self (m : PyDict) :
    alHas (includeItemsRewrite m) "include_items" = false := by
  cases hh : alHas m "include_items"
  · rw [includeItemsRewrite_absent m hh]
    exact hh
  · simp only [includeItemsRewrite, hh, if_true]
    cases htr : includeTruthy ((alGet m "include_items").getD .null)
    · simp only [htr, Bool.false_eq_true, if_false]
      exact alHas_alPop_self m _
    · simp only [htr, if_true]
      rw [alHas_alSet_ne _ _ _ _ (by decide)]
      exact alHas_alPop_self m _

/-- Filtering cannot introduce a key. -/
theorem alHas_filterExpected_false (props : List (String × String)) (a : PyDict) (k : String)
    (h : alHas a k = false) : alHas (filterExpected props a) k = false := by
  cases hf : alHas (filterExpected props a) k
  · rfl
  · exfalso
    simp only [alHas, List.any_eq_true] at hf
    obtain ⟨kv, hkv, hbeq⟩ := hf
    have hmem : alHas a k = true := by
      simp only [alHas, List.any_eq_true]
      exact ⟨kv, (List.mem_filter.mp hkv).1, hbeq⟩
    rw [h] at hmem
    exact Bool.noConfusion hmem

/-- Coercion commutes with the closed-world filter. -/
theorem convert_filterExpected_comm (props : List (String × String)) (a : PyDict) :
    convert_argument_types (filterExpected props a) props
      = filterExpected props (convert_argument_types a props) := by
  induction a with
  | nil => rfl
  | cons kv t ih =>
    simp only [convert_argument_types, filterExpected] at ih ⊢
    simp only [List.filter_cons, List.map_cons, convEntry_fst]
    cases hd : declared props kv.1
    · simp only [Bool.false_eq_true, if_false]
      exact ih
    · simp only [if_true, List.map_cons]
      rw [ih]

/-- Coercion is idempotent on mappings. -/
theorem convert_idem (a : PyDict) (props : List (String × String)) :
    convert_argument_types (convert_argument_types a props) props
      = convert_argument_types a props := by
  unfold convert_argument_types
  rw [List.map_map]
  apply List.map_congr_left
  intro kv _
  exact convEntry_idem props kv

/-- The closed-world filter is idempotent. -/
theorem filterExpected_idem (props : List (String × String)) (a : PyDict) :
    filterExpected props (filterExpected props a) = filterExpected props a := by
  unfold filterExpected
  rw [List.filter_filter]
  simp [Bool.and_self]

/-- A falsy context default disables injection. -/
theorem injectCourse_id (ctx : Option JValue) (props : List (String × String)) (m : PyDict)
    (hctx : pyTruthyOpt ctx = false) : injectCourse ctx props m = m := by
  have hc : injectCond ctx props m = false := by simp [injectCond, hctx]
  simp [injectCourse, hc]

/-- With a falsy context default, the full pipeline is the identity on any
of its own outputs (characterised as a filtered coercion image without
`include_items`). -/
theorem normalizeArgsWith_id_on_output (aliases : List (String × String))
    (ctx : Option JValue) (props : List (String × String)) (X M : PyDict)
    (hctx : pyTruthyOpt ctx = false)
    (hX : X = filterExpected props (convert_argument_types M props))
    (hii : alHas X "include_items" = false) :
    normalizeArgsWith aliases ctx props X = X := by
  have hkeys : ∀ kv ∈ X, declared props kv.1 = true := by
    rw [hX]
    exact filterExpected_keys props _
  calc normalizeArgsWith aliases ctx props X
      = filterExpected props (convert_argument_types
          (includeItemsRewrite (aliasApply aliases props (injectCourse ctx props X))) props) := rfl
    _ = filterExpected props (convert_argument_types X props) := by
        rw [injectCourse_id ctx props X hctx, aliasApply_id aliases props X hkeys,
          includeItemsRewrite_absent X hii]
    _ = X := by
        rw [hX, convert_filterExpected_comm, convert_idem, filterExpected_idem]

/-- The one-parameter schema of the C5 counterexample. -/
def propsC5 : List (String × String) := [("course_id", "integer")]

/-- Counterexample to C5 as stated: with a truthy course context, the
string `"0"` coerces to the integer `0`, which is falsy, so a second
normalization pass re-injects the context value — the pipeline is not
idempotent. -/
theorem C5_counterexample :
    normalizeArgs (some (.num 7)) propsC5 [("course_id", JValue.str "0")]
      = [("course_id", JValue.num 0)] ∧
    normalizeArgs (some (.num 7)) propsC5
        (normalizeArgs (some (.num 7)) propsC5 [("course_id", JValue.str "0")])
      = [("course_id", JValue.num 7)] ∧
    normalizeArgs (some (.num 7)) propsC5
        (normalizeArgs (some (.num 7)) propsC5 [("course_id", JValue.str "0")])
      ≠ normalizeArgs (some (.num 7)) propsC5 [("course_id", JValue.str "0")] := by
  refine ⟨rfl, rfl, ?_⟩
  intro h
  rw [show normalizeArgs (some (.num 7)) propsC5
        (normalizeArgs (some (.num 7)) propsC5 [("course_id", JValue.str "0")])
      = [("course_id", JValue.num 7)] from rfl,
    show normalizeArgs (some (.num 7)) propsC5 [("course_id", JValue.str "0")]
      = [("course_id", JValue.num 0)] from rfl] at h
  injection h with h1 _
  injection h1 with _ h2
  injection h2 with h3
  exact absurd h3 (by decide)

/-- C5 (amended): for every alias table, schema and raw argument mapping,
the Schema Normalizer is idempotent PROVIDED the session's context default
is absent or falsy; with a truthy context default a second pass can
re-inject over a coerced falsy `course_id`. -/
theorem C5_normalizer_idempotent_amended (aliases : List (String × String))
    (ctx : Option JValue) (props : List (String × String)) (args : PyDict)
    (hctx : pyTruthyOpt ctx = false) :
    normalizeArgsWith aliases ctx props (normalizeArgsWith aliases ctx props args)
      = normalizeArgsWith aliases ctx props args := by
  apply normalizeArgsWith_id_on_output aliases ctx props _
    (includeItemsRewrite (aliasApply aliases props (injectCourse ctx props args))) hctx rfl
  apply alHas_filterExpected_false
  rw [alHas_convert]
  exact alHas_includeItemsRewrite_self _

/-- Witness for the amended C5 on the program's alias table and a concrete
mapping exercising the alias rewrite and coercion. -/
theorem C5_witness :
    pyTruthyOpt (none : Option JValue) = false ∧
    normalizeArgsWith param_aliases none [("body", "string"), ("published", "boolean")]
        (normalizeArgsWith param_aliases none [("body", "string"), ("published", "boolean")]
          [("content", JValue.str "<p>hi</p>"), ("is_published", JValue.str "Yes"),
           ("junk", JValue.num 1)])
      = normalizeArgsWith param_aliases none [("body", "string"), ("published", "boolean")]
          [("content", JValue.str "<p>hi</p>"), ("is_published", JValue.str "Yes"),
           ("junk", JValue.num 1)] :=
  ⟨rfl,
   C5_normalizer_idempotent_amended param_aliases none
     [("body", "string"), ("published", "boolean")]
     [("content", JValue.str "<p>hi</p>"), ("is_published", JValue.str "Yes"),
      ("junk", JValue.num 1)] rfl⟩
